import Mathlib

/-!
Shallow embedding of the bank ledger core of this repository
(src/src/lib.rs, crate `bank`, together with its entry point src/src/main.rs).

Conventions of the embedding:

* `Amount` (`type Amount = i64` in the source, lib.rs line 23) is carried as
  `Int`.  The source's i64 arithmetic overflows for some in-range inputs
  (`1000 - i64::MIN` in the sufficiency check, or a credit near `i64::MAX`):
  a debug build panics there and a release build wraps two's-complement.
  The faithful release-build semantics is therefore modelled explicitly:
  `wrap64` reduces every arithmetic result into `[-2^63, 2^63)`, and
  `Account.has_sufficient_funds_i64`, `Account.subtract_funds_i64`,
  `Account.add_funds_i64` and `handle_transaction_i64` are the source
  operations under that wrapping; a debug build panics exactly where
  `wrap64 x ≠ x`.  The unsuffixed operations (`has_sufficient_funds`,
  `subtract_funds`, `add_funds`, `handle_transaction`) are the
  exact-arithmetic idealization; the two coincide whenever every
  intermediate value stays in the i64 range, and the exact model is used
  only for properties whose domains provably keep every computation in
  range (or that never touch balance arithmetic at all).  The i64 range of
  parsed amounts is enforced in the embedding of `str::parse::<i64>`.
* The `hashbrown::HashMap<String, Account>` inside `Bank` is modelled as an
  association list of `Account`s keyed by `Account.name`; `Bank.new` inserts
  with replace-on-duplicate semantics, so reachable banks have pairwise
  distinct names.  `get_many_mut` on two keys returns `some` exactly when the
  two keys are distinct and both present, mirroring hashbrown's
  `get_many_mut : Option<[&mut V; N]>` which yields `None` on overlapping or
  missing keys.
* Rust panics (the `unreachable!()` arm of `handle_transaction`) are a
  distinct constructor `TxResult.panicUnreachable` of the result type.
* I/O is cut at the obvious boundary: `get_tx_info` takes the three trimmed
  lines read by `prompt_and_get_input` as arguments; the body of the live
  `run_app` loop takes the result of `listener.recv` as an argument and
  returns what the iteration sends and whether the loop continues.
-/

/-- `type Amount = i64` (lib.rs 23).  i64 values are carried as `Int`; the
release-build i64 semantics lives in `wrap64` and the `_i64` operations, the
unsuffixed operations are the exact-arithmetic idealization (see header). -/
abbrev Amount : Type := Int

/-- `struct Account { name: String, balance: Amount }` (lib.rs 25-29). -/
structure Account where
  name : String
  balance : Amount
deriving DecidableEq, Repr

/-- `Account::new` (lib.rs 32-34). -/
def Account.new (name : String) (balance : Amount) : Account :=
  { name := name, balance := balance }

/-- `Account::has_sufficient_funds` (lib.rs 36-38), `self.balance - amount >= 0`,
under EXACT integer arithmetic.  The faithful i64 semantics is
`Account.has_sufficient_funds_i64`; the two agree exactly when
`balance - amount` lies in the i64 range (a debug build panics and a release
build wraps where they differ). -/
def Account.has_sufficient_funds (a : Account) (amount : Amount) : Bool :=
  decide (a.balance - amount ≥ 0)

/-- `Account::subtract_funds` (lib.rs 40-42), `self.balance -= amount`, under
exact integer arithmetic; `Account.subtract_funds_i64` is the wrapped i64
semantics, agreeing whenever the difference stays in range. -/
def Account.subtract_funds (a : Account) (amount : Amount) : Account :=
  { a with balance := a.balance - amount }

/-- `Account::add_funds` (lib.rs 44-46), `self.balance += amount`, under exact
integer arithmetic; `Account.add_funds_i64` is the wrapped i64 semantics,
agreeing whenever the sum stays in range. -/
def Account.add_funds (a : Account) (amount : Amount) : Account :=
  { a with balance := a.balance + amount }

/-- `struct AccountNamesTuple(String, String)` (lib.rs 61-62). -/
structure AccountNamesTuple where
  fst : String
  snd : String
deriving DecidableEq, Repr

/-- The `Display` impl for `AccountNamesTuple` (lib.rs 64-74), verbatim:
if field 0 is empty it prints field 0 (quoted), else if field 1 is empty it
prints field 1 (quoted), else it prints both. -/
def AccountNamesTuple.display (t : AccountNamesTuple) : String :=
  if t.fst = "" then "\x27" ++ t.fst ++ "\x27"
  else if t.snd = "" then "\x27" ++ t.snd ++ "\x27"
  else "\x27" ++ t.fst ++ "\x27 and \x27" ++ t.snd ++ "\x27"

/-- The `thiserror` message of `AccountDoesNotExistError` (lib.rs 76-80):
`"Account(s) {} not found"` applied to the tuple's `Display`. -/
def accountDoesNotExistMessage (t : AccountNamesTuple) : String :=
  "Account(s) " ++ t.display ++ " not found"

/-- `enum CustomError` (lib.rs 82-92).  The two bank-level variants carry the
payloads of the wrapped structs (lib.rs 55-59 and 76-80); the I/O and parse
variants carry no payload relevant to the embedded logic. -/
inductive CustomError where
  | AccountDoesNotExistError (account_name : AccountNamesTuple)
  | InsufficientFundsError (account_name : String)
  | IOError
  | ParseIntError
deriving DecidableEq, Repr

/-- `struct Bank { accounts: HashMap<String, Account> }` (lib.rs 94-97),
as an association list keyed by `Account.name`. -/
structure Bank where
  accounts : List Account
deriving DecidableEq, Repr

/-- One `HashMap::insert(account.name, account)`: replace the entry with the
same name when present, append otherwise. -/
def insertAccount (l : List Account) (acc : Account) : List Account :=
  if l.any (fun a => a.name == acc.name) then
    l.map (fun a => if a.name = acc.name then acc else a)
  else
    l ++ [acc]

/-- `Bank::new` (lib.rs 100-108): insert each seeded account into an empty map. -/
def Bank.new (accounts : List Account) : Bank :=
  { accounts := accounts.foldl insertAccount [] }

/-- `init_bank` (lib.rs 15-21): the seeded bank. -/
def init_bank : Bank :=
  Bank.new
    [Account.new "patko" 1000, Account.new "siska" 1000, Account.new "sofka" 1000]

/-- `HashMap::contains_key` on `bank.accounts`. -/
def Bank.containsKey (b : Bank) (n : String) : Bool :=
  b.accounts.any (fun a => a.name == n)

/-- Lookup of the entry for key `n` (`HashMap::get`). -/
def Bank.getAccount (b : Bank) (n : String) : Option Account :=
  b.accounts.find? (fun a => a.name == n)

/-- The functional form of mutating the entry for key `n` through a mutable
reference: apply `f` to the account named `n`, leave the others alone. -/
def Bank.updateAccount (b : Bank) (n : String) (f : Account → Account) : Bank :=
  { accounts := b.accounts.map (fun a => if a.name = n then f a else a) }

/-- The key set of the bank (as the list of names, in entry order). -/
def Bank.names (b : Bank) : List String :=
  b.accounts.map Account.name

/-- The sum of all balances in the bank. -/
def Bank.totalBalance (b : Bank) : Int :=
  (b.accounts.map Account.balance).sum

/-- All balances in the bank are non-negative. -/
def Bank.allNonNeg (b : Bank) : Bool :=
  b.accounts.all (fun a => decide (0 ≤ a.balance))

/-- hashbrown's `HashMap::get_many_mut([&k1, &k2])` (used at lib.rs 113):
`Some` of the two entries when the keys are distinct and both present,
`None` when the keys overlap or either is missing. -/
def Bank.get_many_mut (b : Bank) (k1 k2 : String) : Option (Account × Account) :=
  if k1 == k2 then none
  else
    match b.getAccount k1, b.getAccount k2 with
    | some a1, some a2 => some (a1, a2)
    | _, _ => none

/-- `struct TXInfo { from, to, amount }` (lib.rs 184-188).  `from` is a Lean
keyword, hence the field name `from_`. -/
structure TXInfo where
  from_ : String
  to_ : String
  amount : Amount
deriving DecidableEq, Repr

/-- The outcome of `Bank::handle_transaction`: `Ok(())` with the new bank
state, an `Err` with the unchanged bank state, or the `unreachable!()` panic
(lib.rs 152) with the unchanged bank state. -/
inductive TxResult where
  | ok (bank : Bank)
  | err (e : CustomError) (bank : Bank)
  | panicUnreachable (bank : Bank)
deriving DecidableEq, Repr

/-- The bank state carried by a `TxResult`. -/
def TxResult.bank : TxResult → Bank
  | .ok b => b
  | .err _ b => b
  | .panicUnreachable b => b

/-- `Bank::handle_transaction` (lib.rs 110-156), after `get_tx_info` has
produced a `TXInfo`.  `get_many_mut` success leads to the sufficient-funds
check and then the debit/credit pair (or `InsufficientFundsError`); on
`None` the `(contains from, contains to)` match reports the missing side(s)
or hits `unreachable!()` when both are present (i.e. when `from == to`). -/
def handle_transaction (b : Bank) (tx : TXInfo) : TxResult :=
  match b.get_many_mut tx.from_ tx.to_ with
  | some (fromAcc, _toAcc) =>
    if fromAcc.has_sufficient_funds tx.amount then
      TxResult.ok
        ((b.updateAccount tx.from_ (fun a => a.subtract_funds tx.amount)).updateAccount
          tx.to_ (fun a => a.add_funds tx.amount))
    else
      TxResult.err (CustomError.InsufficientFundsError tx.from_) b
  | none =>
    match b.containsKey tx.from_, b.containsKey tx.to_ with
    | false, true => TxResult.err (CustomError.AccountDoesNotExistError ⟨tx.from_, ""⟩) b
    | true, false => TxResult.err (CustomError.AccountDoesNotExistError ⟨"", tx.to_⟩) b
    | false, false => TxResult.err (CustomError.AccountDoesNotExistError ⟨tx.from_, tx.to_⟩) b
    | true, true => TxResult.panicUnreachable b

/-- A sequence of `handle_transaction` calls, threading the bank state
(errors and the panic leave the state unchanged). -/
def applyTxs (b : Bank) (txs : List TXInfo) : Bank :=
  txs.foldl (fun bb tx => (handle_transaction bb tx).bank) b

/-- Two's-complement reduction into the i64 range `[-2^63, 2^63)`: the value
an i64 arithmetic result takes in a release build.  A debug build panics on
the operation exactly when `wrap64 x ≠ x`. -/
def wrap64 (x : Int) : Int :=
  (x + 2 ^ 63) % 2 ^ 64 - 2 ^ 63

/-- Membership in the i64 range `[-2^63, 2^63 - 1]`. -/
abbrev inI64 (x : Int) : Prop :=
  -(2 ^ 63) ≤ x ∧ x ≤ 2 ^ 63 - 1

/-- `Account::has_sufficient_funds` (lib.rs 36-38) under release-build i64
semantics: the i64 subtraction `self.balance - amount` wraps. -/
def Account.has_sufficient_funds_i64 (a : Account) (amount : Amount) : Bool :=
  decide (wrap64 (a.balance - amount) ≥ 0)

/-- `Account::subtract_funds` (lib.rs 40-42) under release-build i64
semantics: `self.balance -= amount` wraps. -/
def Account.subtract_funds_i64 (a : Account) (amount : Amount) : Account :=
  { a with balance := wrap64 (a.balance - amount) }

/-- `Account::add_funds` (lib.rs 44-46) under release-build i64 semantics:
`self.balance += amount` wraps. -/
def Account.add_funds_i64 (a : Account) (amount : Amount) : Account :=
  { a with balance := wrap64 (a.balance + amount) }

/-- `Bank::handle_transaction` (lib.rs 110-156) under release-build i64
semantics: identical control flow to `handle_transaction`, but the
sufficiency check and the debit/credit use the wrapping i64 operations.
A debug build panics at the first operation whose exact result leaves the
i64 range; on inputs where no operation overflows this definition,
`handle_transaction` and both Rust builds all coincide. -/
def handle_transaction_i64 (b : Bank) (tx : TXInfo) : TxResult :=
  match b.get_many_mut tx.from_ tx.to_ with
  | some (fromAcc, _toAcc) =>
    if fromAcc.has_sufficient_funds_i64 tx.amount then
      TxResult.ok
        ((b.updateAccount tx.from_ (fun a => a.subtract_funds_i64 tx.amount)).updateAccount
          tx.to_ (fun a => a.add_funds_i64 tx.amount))
    else
      TxResult.err (CustomError.InsufficientFundsError tx.from_) b
  | none =>
    match b.containsKey tx.from_, b.containsKey tx.to_ with
    | false, true => TxResult.err (CustomError.AccountDoesNotExistError ⟨tx.from_, ""⟩) b
    | true, false => TxResult.err (CustomError.AccountDoesNotExistError ⟨"", tx.to_⟩) b
    | false, false => TxResult.err (CustomError.AccountDoesNotExistError ⟨tx.from_, tx.to_⟩) b
    | true, true => TxResult.panicUnreachable b

/-- `Bank::show_all_accounts` (lib.rs 158-162): the printed lines, one per
account, via the `Display` impl of `Account` (lib.rs 49-53). -/
def show_all_accounts (b : Bank) : List String :=
  b.accounts.map (fun a => a.name ++ ", " ++ toString a.balance)

/-- A non-empty all-digit run parsed to its value; `none` on the empty run or
any non-digit character (the digit part of Rust `i64::from_str`). -/
def parseDigits (cs : List Char) : Option Nat :=
  if cs = [] then none
  else
    cs.foldl
      (fun acc c =>
        acc.bind (fun n => if c.isDigit then some (n * 10 + (c.toNat - 48)) else none))
      (some 0)

/-- Rust's `str::parse::<i64>` (used at lib.rs 194): an optional single sign,
then one or more ASCII digits, value within the i64 range
`[-(2^63), 2^63 - 1]`; anything else is a parse error. -/
def parseI64 (s : String) : Option Int :=
  match s.data with
  | [] => none
  | c :: rest =>
    if c = Char.ofNat 45 then
      (parseDigits rest).bind
        (fun n => if n ≤ 2 ^ 63 then some (-(n : Int)) else none)
    else if c = Char.ofNat 43 then
      (parseDigits rest).bind
        (fun n => if n ≤ 2 ^ 63 - 1 then some ((n : Int)) else none)
    else
      (parseDigits (c :: rest)).bind
        (fun n => if n ≤ 2 ^ 63 - 1 then some ((n : Int)) else none)

/-- `get_tx_info` (lib.rs 190-196), with the three trimmed input lines of
`prompt_and_get_input` as arguments: the `from` and `to` strings are taken
as-is, the amount string goes through `parse::<i64>` and a failure becomes
`CustomError::ParseIntError` via the `?`/`From` conversion. -/
def get_tx_info (from_s to_s amount_s : String) : Except CustomError TXInfo :=
  match parseI64 amount_s with
  | some n => Except.ok { from_ := from_s, to_ := to_s, amount := n }
  | none => Except.error CustomError.ParseIntError

/-- Whether an iteration of the live `run_app` loop continues or leaves the
loop (returning an exit code). -/
inductive LoopControl where
  | nextIteration
  | terminated (code : Int)
deriving DecidableEq, Repr

/-- What one iteration of the live `run_app` loop does: the datagram it sends
back, and whether the loop continues. -/
structure LoopStep where
  reply : Option (List Nat)
  control : LoopControl
deriving DecidableEq, Repr

/-- The body of the live loop of `run_app` (lib.rs 230-247), as a function of
the result of `listener.recv` into the 3-byte instruction buffer: on a
received datagram it prints the buffer and sends `b"abcd"` back; on a recv
error it prints the error; in both cases the loop continues.  No branch
inspects the instruction byte and no branch leaves the loop; the `Ok(0)`
after the loop (lib.rs 249) is dead code.  The instruction dispatch on
`"t"`/`"i"`/`"q"` exists only inside the comment block at lib.rs 251-278. -/
def run_app_loop_body (recvResult : Option (List Nat)) : LoopStep :=
  match recvResult with
  | some _bytes => { reply := some [97, 98, 99, 100], control := LoopControl.nextIteration }
  | none => { reply := none, control := LoopControl.nextIteration }

theorem any_eq_isSome_find? (l : List Account) (p : Account → Bool) :
    l.any p = (l.find? p).isSome := by
  induction l with
  | nil => rfl
  | cons x xs ih => by_cases h : p x <;> simp [h, ih]

theorem containsKey_iff_getAccount (b : Bank) (n : String) :
    b.containsKey n = true ↔ ∃ a, b.getAccount n = some a := by
  rw [Bank.containsKey, Bank.getAccount, any_eq_isSome_find?, Option.isSome_iff_exists]

theorem find?_map_update_self (l : List Account) (n : String) (f : Account → Account)
    (hf : ∀ a, (f a).name = a.name) :
    (l.map (fun a => if a.name = n then f a else a)).find? (fun a => a.name == n)
      = (l.find? (fun a => a.name == n)).map f := by
  induction l with
  | nil => rfl
  | cons x xs ih =>
    by_cases hx : x.name = n
    · simp [hx, hf]
    · simp [hx, ih, -List.find?_map]

theorem find?_map_update_ne (l : List Account) (n m : String) (f : Account → Account)
    (hf : ∀ a, (f a).name = a.name) (hne : m ≠ n) :
    (l.map (fun a => if a.name = n then f a else a)).find? (fun a => a.name == m)
      = l.find? (fun a => a.name == m) := by
  induction l with
  | nil => rfl
  | cons x xs ih =>
    by_cases hx : x.name = n
    · simp [hx, hf, Ne.symm hne, ih, -List.find?_map]
    · by_cases hm : x.name = m
      · simp [hx, hm, hne]
      · simp [hx, hm, ih, -List.find?_map]

theorem names_map_update (l : List Account) (n : String) (f : Account → Account)
    (hf : ∀ a, (f a).name = a.name) :
    (l.map (fun a => if a.name = n then f a else a)).map Account.name
      = l.map Account.name := by
  rw [List.map_map]
  apply List.map_congr_left
  intro a _
  by_cases hx : a.name = n <;> simp [hx, hf]

theorem sum_map_update (l : List Account) (n : String) (f : Account → Account) (a : Account)
    (hnd : (l.map Account.name).Nodup)
    (hfind : l.find? (fun x => x.name == n) = some a) :
    ((l.map (fun x => if x.name = n then f x else x)).map Account.balance).sum
      = (l.map Account.balance).sum - a.balance + (f a).balance := by
  induction l with
  | nil => simp at hfind
  | cons x xs ih =>
    rw [List.map_cons, List.nodup_cons] at hnd
    by_cases hx : x.name = n
    · rw [List.find?_cons_of_pos _ (by simp [hx])] at hfind
      have hax : x = a := Option.some.inj hfind
      subst hax
      have htail : xs.map (fun y => if y.name = n then f y else y) = xs := by
        have hpt : ∀ y ∈ xs, (if y.name = n then f y else y) = y := by
          intro y hy
          have hyn : y.name ≠ n := by
            intro he
            exact hnd.1 (by rw [← he] at hx; rw [hx]; exact List.mem_map_of_mem Account.name hy)
          simp [hyn]
        rw [List.map_congr_left hpt]
        simp
      simp only [List.map_cons, htail, if_pos hx, List.sum_cons]
      ring
    · rw [List.find?_cons_of_neg _ (by simp [hx])] at hfind
      simp only [List.map_cons, if_neg hx, List.sum_cons, ih hnd.2 hfind]
      ring

theorem find?_eq_some_of_mem_nodup (l : List Account)
    (hnd : (l.map Account.name).Nodup) (a : Account) (ha : a ∈ l) :
    l.find? (fun x => x.name == a.name) = some a := by
  induction l with
  | nil => simp at ha
  | cons x xs ih =>
    rw [List.map_cons, List.nodup_cons] at hnd
    rcases List.mem_cons.mp ha with rfl | hmem
    · exact List.find?_cons_of_pos _ (by simp)
    · have hx : x.name ≠ a.name := by
        intro he
        exact hnd.1 (by rw [he]; exact List.mem_map_of_mem Account.name hmem)
      rw [List.find?_cons_of_neg _ (by simp [hx])]
      exact ih hnd.2 hmem

theorem getAccount_updateAccount_self (b : Bank) (n : String) (f : Account → Account)
    (hf : ∀ a, (f a).name = a.name) :
    (b.updateAccount n f).getAccount n = (b.getAccount n).map f :=
  find?_map_update_self b.accounts n f hf

theorem getAccount_updateAccount_ne (b : Bank) (n m : String) (f : Account → Account)
    (hf : ∀ a, (f a).name = a.name) (hne : m ≠ n) :
    (b.updateAccount n f).getAccount m = b.getAccount m :=
  find?_map_update_ne b.accounts n m f hf hne

theorem names_updateAccount (b : Bank) (n : String) (f : Account → Account)
    (hf : ∀ a, (f a).name = a.name) :
    (b.updateAccount n f).names = b.names :=
  names_map_update b.accounts n f hf

theorem totalBalance_updateAccount (b : Bank) (n : String) (f : Account → Account) (a : Account)
    (hnd : b.names.Nodup) (hget : b.getAccount n = some a) :
    (b.updateAccount n f).totalBalance = b.totalBalance - a.balance + (f a).balance :=
  sum_map_update b.accounts n f a hnd hget

theorem subtract_funds_name (amount : Amount) :
    ∀ a : Account, (a.subtract_funds amount).name = a.name :=
  fun _ => rfl

theorem add_funds_name (amount : Amount) :
    ∀ a : Account, (a.add_funds amount).name = a.name :=
  fun _ => rfl

theorem get_many_mut_eq_some_iff (b : Bank) (k1 k2 : String) (a1 a2 : Account) :
    b.get_many_mut k1 k2 = some (a1, a2) ↔
      k1 ≠ k2 ∧ b.getAccount k1 = some a1 ∧ b.getAccount k2 = some a2 := by
  rw [Bank.get_many_mut]
  by_cases h : k1 = k2
  · simp [h]
  · rw [if_neg (by simp [h])]
    rcases hx : b.getAccount k1 with _ | x <;> rcases hy : b.getAccount k2 with _ | y <;>
      simp [h, hx, hy]

theorem handle_transaction_success (b : Bank) (tx : TXInfo) (af a2 : Account)
    (hne : tx.from_ ≠ tx.to_)
    (hf : b.getAccount tx.from_ = some af) (ht : b.getAccount tx.to_ = some a2)
    (hsuff : 0 ≤ af.balance - tx.amount) :
    handle_transaction b tx =
      TxResult.ok
        ((b.updateAccount tx.from_ (fun a => a.subtract_funds tx.amount)).updateAccount
          tx.to_ (fun a => a.add_funds tx.amount)) := by
  have hs : af.has_sufficient_funds tx.amount = true := by
    simp [Account.has_sufficient_funds]
    linarith
  simp only [handle_transaction,
    (get_many_mut_eq_some_iff b tx.from_ tx.to_ af a2).mpr ⟨hne, hf, ht⟩, hs, if_true]

theorem handle_transaction_insufficient (b : Bank) (tx : TXInfo) (af a2 : Account)
    (hne : tx.from_ ≠ tx.to_)
    (hf : b.getAccount tx.from_ = some af) (ht : b.getAccount tx.to_ = some a2)
    (hlow : af.balance - tx.amount < 0) :
    handle_transaction b tx =
      TxResult.err (CustomError.InsufficientFundsError tx.from_) b := by
  have hs : af.has_sufficient_funds tx.amount = false := by
    simp [Account.has_sufficient_funds]
    linarith
  simp only [handle_transaction,
    (get_many_mut_eq_some_iff b tx.from_ tx.to_ af a2).mpr ⟨hne, hf, ht⟩, hs,
    Bool.false_eq_true, if_false]

theorem handle_transaction_ok_inv (b : Bank) (tx : TXInfo) (b' : Bank)
    (h : handle_transaction b tx = TxResult.ok b') :
    tx.from_ ≠ tx.to_ ∧ ∃ af a2,
      b.getAccount tx.from_ = some af ∧ b.getAccount tx.to_ = some a2 ∧
      0 ≤ af.balance - tx.amount ∧
      b' = (b.updateAccount tx.from_ (fun a => a.subtract_funds tx.amount)).updateAccount
        tx.to_ (fun a => a.add_funds tx.amount) := by
  rcases hm : b.get_many_mut tx.from_ tx.to_ with _ | ⟨af, a2⟩
  · cases hcf : b.containsKey tx.from_ <;> cases hct : b.containsKey tx.to_ <;>
      simp [handle_transaction, hm, hcf, hct] at h
  · obtain ⟨hne, hf, ht⟩ := (get_many_mut_eq_some_iff b tx.from_ tx.to_ af a2).mp hm
    by_cases hs : 0 ≤ af.balance - tx.amount
    · rw [handle_transaction_success b tx af a2 hne hf ht hs] at h
      exact ⟨hne, af, a2, hf, ht, hs, (TxResult.ok.inj h).symm⟩
    · rw [handle_transaction_insufficient b tx af a2 hne hf ht (by linarith)] at h
      exact absurd h (by simp)

theorem names_handle_transaction (b : Bank) (tx : TXInfo) :
    (handle_transaction b tx).bank.names = b.names := by
  rcases hm : b.get_many_mut tx.from_ tx.to_ with _ | ⟨af, a2⟩
  · cases hcf : b.containsKey tx.from_ <;> cases hct : b.containsKey tx.to_ <;>
      simp [handle_transaction, hm, hcf, hct, TxResult.bank]
  · obtain ⟨hne, hf, ht⟩ := (get_many_mut_eq_some_iff b tx.from_ tx.to_ af a2).mp hm
    by_cases hs : 0 ≤ af.balance - tx.amount
    · rw [handle_transaction_success b tx af a2 hne hf ht hs]
      simp only [TxResult.bank]
      rw [names_updateAccount _ _ _ (add_funds_name tx.amount),
        names_updateAccount _ _ _ (subtract_funds_name tx.amount)]
    · rw [handle_transaction_insufficient b tx af a2 hne hf ht (by linarith)]
      rfl

theorem names_applyTxs (b : Bank) (txs : List TXInfo) :
    (applyTxs b txs).names = b.names := by
  induction txs generalizing b with
  | nil => rfl
  | cons tx txs ih =>
    rw [applyTxs, List.foldl_cons]
    rw [show List.foldl (fun bb tx => (handle_transaction bb tx).bank) ((handle_transaction b tx).bank) txs = applyTxs (handle_transaction b tx).bank txs from rfl]
    rw [ih, names_handle_transaction]

theorem subtract_funds_balance (a : Account) (amt : Amount) :
    (a.subtract_funds amt).balance = a.balance - amt :=
  rfl

theorem add_funds_balance (a : Account) (amt : Amount) :
    (a.add_funds amt).balance = a.balance + amt :=
  rfl

theorem allNonNeg_iff (b : Bank) :
    b.allNonNeg = true ↔ ∀ a ∈ b.accounts, 0 ≤ a.balance := by
  simp [Bank.allNonNeg, List.all_eq_true]

theorem mem_updateAccount (b : Bank) (n : String) (f : Account → Account) (x : Account)
    (hx : x ∈ (b.updateAccount n f).accounts) :
    x ∈ b.accounts ∨ ∃ a ∈ b.accounts, a.name = n ∧ x = f a := by
  obtain ⟨a, ha, hax⟩ := List.mem_map.mp hx
  by_cases h : a.name = n
  · right
    exact ⟨a, ha, h, by rw [← hax, if_pos h]⟩
  · left
    rw [← hax, if_neg h]
    exact ha

theorem allNonNeg_handle_transaction (b : Bank) (tx : TXInfo)
    (hnd : b.names.Nodup) (hnn : b.allNonNeg = true) (hamt : 0 ≤ tx.amount) :
    (handle_transaction b tx).bank.allNonNeg = true := by
  rcases hm : b.get_many_mut tx.from_ tx.to_ with _ | ⟨af, a2⟩
  · cases hcf : b.containsKey tx.from_ <;> cases hct : b.containsKey tx.to_ <;>
      simp [handle_transaction, hm, hcf, hct, TxResult.bank, hnn]
  · obtain ⟨hne, hf, ht⟩ := (get_many_mut_eq_some_iff b tx.from_ tx.to_ af a2).mp hm
    by_cases hs : 0 ≤ af.balance - tx.amount
    · rw [handle_transaction_success b tx af a2 hne hf ht hs]
      simp only [TxResult.bank]
      have h1 : (b.updateAccount tx.from_ (fun a => a.subtract_funds tx.amount)).allNonNeg
          = true := by
        rw [allNonNeg_iff]
        intro x hx1
        rcases mem_updateAccount _ _ _ x hx1 with hx0 | ⟨a, ha0, hname, hxa⟩
        · exact (allNonNeg_iff b).mp hnn x hx0
        · have hget : b.accounts.find? (fun y => y.name == a.name) = some a :=
            find?_eq_some_of_mem_nodup b.accounts hnd a ha0
          rw [hname] at hget
          have haf : a = af := by
            have := hget.symm.trans hf
            exact Option.some.inj this
          subst haf
          rw [hxa, subtract_funds_balance]
          linarith
      rw [allNonNeg_iff]
      intro x hx2
      rcases mem_updateAccount _ _ _ x hx2 with hx1 | ⟨a, ha1, hname, hxa⟩
      · exact (allNonNeg_iff _).mp h1 x hx1
      · have ha : 0 ≤ a.balance := (allNonNeg_iff _).mp h1 a ha1
        rw [hxa, add_funds_balance]
        linarith
    · rw [handle_transaction_insufficient b tx af a2 hne hf ht (by linarith)]
      exact hnn

theorem allNonNeg_applyTxs (b : Bank) (txs : List TXInfo) (hnd : b.names.Nodup)
    (hnn : b.allNonNeg = true) (h : ∀ tx ∈ txs, 0 ≤ tx.amount) :
    (applyTxs b txs).allNonNeg = true := by
  induction txs generalizing b with
  | nil => exact hnn
  | cons tx txs ih =>
    rw [applyTxs, List.foldl_cons]
    have hnd1 : (handle_transaction b tx).bank.names.Nodup := by
      rw [names_handle_transaction]
      exact hnd
    exact ih (handle_transaction b tx).bank hnd1
      (allNonNeg_handle_transaction b tx hnd hnn (h tx (List.mem_cons_self tx txs)))
      (fun t ht => h t (List.mem_cons_of_mem tx ht))

theorem parseI64_range (a : String) (n : Int) (hn : parseI64 a = some n) :
    -(2 ^ 63) ≤ n ∧ n ≤ 2 ^ 63 - 1 := by
  rw [parseI64] at hn
  rcases hd : a.data with _ | ⟨c, rest⟩ <;> rw [hd] at hn <;> dsimp only at hn
  · exact absurd hn (by simp)
  · by_cases hneg : c = Char.ofNat 45
    · rw [if_pos hneg] at hn
      rcases hpd : parseDigits rest with _ | m <;> rw [hpd] at hn
      · exact absurd hn (by simp)
      · rw [Option.some_bind] at hn
        by_cases hm : m ≤ 2 ^ 63
        · rw [if_pos hm] at hn
          have hmn : -(m : Int) = n := Option.some.inj hn
          subst hmn
          omega
        · rw [if_neg hm] at hn
          exact absurd hn (by simp)
    · rw [if_neg hneg] at hn
      by_cases hplus : c = Char.ofNat 43
      · rw [if_pos hplus] at hn
        rcases hpd : parseDigits rest with _ | m <;> rw [hpd] at hn
        · exact absurd hn (by simp)
        · rw [Option.some_bind] at hn
          by_cases hm : m ≤ 2 ^ 63 - 1
          · rw [if_pos hm] at hn
            have hmn : (m : Int) = n := Option.some.inj hn
            subst hmn
            omega
          · rw [if_neg hm] at hn
            exact absurd hn (by simp)
      · rw [if_neg hplus] at hn
        rcases hpd : parseDigits (c :: rest) with _ | m <;> rw [hpd] at hn
        · exact absurd hn (by simp)
        · rw [Option.some_bind] at hn
          by_cases hm : m ≤ 2 ^ 63 - 1
          · rw [if_pos hm] at hn
            have hmn : (m : Int) = n := Option.some.inj hn
            subst hmn
            omega
          · rw [if_neg hm] at hn
            exact absurd hn (by simp)

theorem wrap64_eq_self (x : Int) (h1 : -(2 ^ 63) ≤ x) (h2 : x ≤ 2 ^ 63 - 1) :
    wrap64 x = x := by
  rw [wrap64]
  omega

theorem wrap64_emod (x : Int) : wrap64 x % 2 ^ 64 = x % 2 ^ 64 := by
  rw [wrap64]
  omega

theorem subtract_funds_i64_name (amount : Amount) :
    ∀ a : Account, (a.subtract_funds_i64 amount).name = a.name :=
  fun _ => rfl

theorem add_funds_i64_name (amount : Amount) :
    ∀ a : Account, (a.add_funds_i64 amount).name = a.name :=
  fun _ => rfl

theorem subtract_funds_i64_balance (a : Account) (amt : Amount) :
    (a.subtract_funds_i64 amt).balance = wrap64 (a.balance - amt) :=
  rfl

theorem add_funds_i64_balance (a : Account) (amt : Amount) :
    (a.add_funds_i64 amt).balance = wrap64 (a.balance + amt) :=
  rfl

theorem handle_transaction_i64_success (b : Bank) (tx : TXInfo) (af a2 : Account)
    (hne : tx.from_ ≠ tx.to_)
    (hf : b.getAccount tx.from_ = some af) (ht : b.getAccount tx.to_ = some a2)
    (hsuff : 0 ≤ wrap64 (af.balance - tx.amount)) :
    handle_transaction_i64 b tx =
      TxResult.ok
        ((b.updateAccount tx.from_ (fun a => a.subtract_funds_i64 tx.amount)).updateAccount
          tx.to_ (fun a => a.add_funds_i64 tx.amount)) := by
  have hs : af.has_sufficient_funds_i64 tx.amount = true := by
    simp [Account.has_sufficient_funds_i64]
    linarith
  simp only [handle_transaction_i64,
    (get_many_mut_eq_some_iff b tx.from_ tx.to_ af a2).mpr ⟨hne, hf, ht⟩, hs, if_true]

theorem handle_transaction_i64_insufficient (b : Bank) (tx : TXInfo) (af a2 : Account)
    (hne : tx.from_ ≠ tx.to_)
    (hf : b.getAccount tx.from_ = some af) (ht : b.getAccount tx.to_ = some a2)
    (hlow : wrap64 (af.balance - tx.amount) < 0) :
    handle_transaction_i64 b tx =
      TxResult.err (CustomError.InsufficientFundsError tx.from_) b := by
  have hs : af.has_sufficient_funds_i64 tx.amount = false := by
    simp [Account.has_sufficient_funds_i64]
    linarith
  simp only [handle_transaction_i64,
    (get_many_mut_eq_some_iff b tx.from_ tx.to_ af a2).mpr ⟨hne, hf, ht⟩, hs,
    Bool.false_eq_true, if_false]

theorem handle_transaction_i64_ok_inv (b : Bank) (tx : TXInfo) (b' : Bank)
    (h : handle_transaction_i64 b tx = TxResult.ok b') :
    tx.from_ ≠ tx.to_ ∧ ∃ af a2,
      b.getAccount tx.from_ = some af ∧ b.getAccount tx.to_ = some a2 ∧
      0 ≤ wrap64 (af.balance - tx.amount) ∧
      b' = (b.updateAccount tx.from_ (fun a => a.subtract_funds_i64 tx.amount)).updateAccount
        tx.to_ (fun a => a.add_funds_i64 tx.amount) := by
  rcases hm : b.get_many_mut tx.from_ tx.to_ with _ | ⟨af, a2⟩
  · cases hcf : b.containsKey tx.from_ <;> cases hct : b.containsKey tx.to_ <;>
      simp [handle_transaction_i64, hm, hcf, hct] at h
  · obtain ⟨hne, hf, ht⟩ := (get_many_mut_eq_some_iff b tx.from_ tx.to_ af a2).mp hm
    by_cases hs : 0 ≤ wrap64 (af.balance - tx.amount)
    · rw [handle_transaction_i64_success b tx af a2 hne hf ht hs] at h
      exact ⟨hne, af, a2, hf, ht, hs, (TxResult.ok.inj h).symm⟩
    · rw [handle_transaction_i64_insufficient b tx af a2 hne hf ht (by linarith)] at h
      exact absurd h (by simp)

theorem sum_mod_helper (t af a2 amt w1 w2 : Int)
    (h1 : w1 % 2 ^ 64 = (af - amt) % 2 ^ 64)
    (h2 : w2 % 2 ^ 64 = (a2 + amt) % 2 ^ 64) :
    (t - af + w1 - a2 + w2) % 2 ^ 64 = t % 2 ^ 64 := by
  omega

/-- Counterexample to C1 as stated: the amount `i64::MIN` satisfies the
claim's hypotheses (distinct existing accounts, `amount <= from.balance`),
but the i64 sufficiency check `1000 - (-2^63)` overflows: a release build
wraps it negative and returns `InsufficientFundsError` (a debug build
panics), so the transfer does not succeed.  Moreover even a non-negative
in-range amount can violate the exact-delta part: from the seeded bank the
reachable state with patko at `2^63 - 1000` lets the credit of
`sofka -> patko, 1000` wrap patko to `-2^63` instead of increasing it by
1000. -/
theorem c1_i64_overflow_counterexample :
    ((-(2 ^ 63) : Amount) ≤ (1000 : Amount)) ∧
    handle_transaction_i64 init_bank { from_ := "patko", to_ := "siska", amount := -(2 ^ 63) } =
      TxResult.err (CustomError.InsufficientFundsError "patko") init_bank ∧
    (¬∃ b', handle_transaction_i64 init_bank
        { from_ := "patko", to_ := "siska", amount := -(2 ^ 63) } = TxResult.ok b') ∧
    handle_transaction_i64 init_bank
        { from_ := "patko", to_ := "siska", amount := -(2 ^ 63 - 2000) } =
      TxResult.ok (Bank.mk [Account.new "patko" (2 ^ 63 - 1000),
        Account.new "siska" (3000 - 2 ^ 63), Account.new "sofka" 1000]) ∧
    handle_transaction_i64
        (Bank.mk [Account.new "patko" (2 ^ 63 - 1000),
          Account.new "siska" (3000 - 2 ^ 63), Account.new "sofka" 1000])
        { from_ := "sofka", to_ := "patko", amount := 1000 } =
      TxResult.ok (Bank.mk [Account.new "patko" (-(2 ^ 63)),
        Account.new "siska" (3000 - 2 ^ 63), Account.new "sofka" 0]) ∧
    ((-(2 ^ 63) : Int) ≠ (2 ^ 63 - 1000) + 1000) := by
  have h1 : handle_transaction_i64 init_bank
      { from_ := "patko", to_ := "siska", amount := -(2 ^ 63) } =
      TxResult.err (CustomError.InsufficientFundsError "patko") init_bank := by decide
  refine ⟨by decide, h1, ?_, by decide, by decide, by decide⟩
  rintro ⟨b', h⟩
  rw [h1] at h
  exact TxResult.noConfusion h

/-- Claim C1 amended: for every transfer where `from` and `to` are distinct
existing accounts, the `from` balance is in the i64 range,
`0 <= amount <= from.balance`, and the credited balance
`to.balance + amount` stays in the i64 range, `handle_transaction` under
the faithful i64 semantics succeeds, the `from` balance decreases by
exactly `amount`, and the `to` balance increases by exactly `amount` (no
operation overflows, so debug and release builds agree here). -/
theorem c1_i64_in_range_transfer_updates_balances (b : Bank) (tx : TXInfo) (af a2 : Account)
    (hne : tx.from_ ≠ tx.to_)
    (hf : b.getAccount tx.from_ = some af) (ht : b.getAccount tx.to_ = some a2)
    (haf : inI64 af.balance)
    (h0 : 0 ≤ tx.amount) (hamt : tx.amount ≤ af.balance)
    (hcr : inI64 (a2.balance + tx.amount)) :
    ∃ b', handle_transaction_i64 b tx = TxResult.ok b' ∧
      (b'.getAccount tx.from_).map Account.balance = some (af.balance - tx.amount) ∧
      (b'.getAccount tx.to_).map Account.balance = some (a2.balance + tx.amount) := by
  have hchkeq : wrap64 (af.balance - tx.amount) = af.balance - tx.amount :=
    wrap64_eq_self _ (by linarith) (by linarith [haf.2])
  have hsuff : 0 ≤ wrap64 (af.balance - tx.amount) := by
    rw [hchkeq]
    linarith
  refine ⟨_, handle_transaction_i64_success b tx af a2 hne hf ht hsuff, ?_, ?_⟩
  · rw [getAccount_updateAccount_ne _ _ _ _ (add_funds_i64_name tx.amount) hne,
      getAccount_updateAccount_self _ _ _ (subtract_funds_i64_name tx.amount), hf,
      Option.map_some', Option.map_some', subtract_funds_i64_balance, hchkeq]
  · rw [getAccount_updateAccount_self _ _ _ (add_funds_i64_name tx.amount),
      getAccount_updateAccount_ne _ _ _ _ (subtract_funds_i64_name tx.amount) (Ne.symm hne), ht,
      Option.map_some', Option.map_some', add_funds_i64_balance,
      wrap64_eq_self _ hcr.1 hcr.2]

/-- Witness for the amended C1: the seeded transfer `patko -> siska, 300`
stays in range and moves the balances to 700 and 1300. -/
theorem c1_i64_in_range_transfer_updates_balances_witness :
    (("patko" : String) ≠ "siska") ∧
    init_bank.getAccount "patko" = some (Account.new "patko" 1000) ∧
    init_bank.getAccount "siska" = some (Account.new "siska" 1000) ∧
    inI64 (Account.new "patko" 1000).balance ∧
    ((0 : Amount) ≤ 300) ∧ ((300 : Amount) ≤ (Account.new "patko" 1000).balance) ∧
    inI64 ((Account.new "siska" 1000).balance + 300) ∧
    ∃ b', handle_transaction_i64 init_bank
        { from_ := "patko", to_ := "siska", amount := 300 } = TxResult.ok b' ∧
      (b'.getAccount "patko").map Account.balance = some 700 ∧
      (b'.getAccount "siska").map Account.balance = some 1300 :=
  ⟨by decide, by decide, by decide, by decide, by decide, by decide, by decide,
    c1_i64_in_range_transfer_updates_balances init_bank
      { from_ := "patko", to_ := "siska", amount := 300 }
      (Account.new "patko" 1000) (Account.new "siska" 1000)
      (by decide) (by decide) (by decide) (by decide) (by decide) (by decide) (by decide)⟩

/-- Counterexample to C2 as stated: with only in-range reachable steps from
the seed (`patko -> siska, -(2^63 - 2000)`, every i64 operation in range),
the follow-up `sofka -> patko, 1000` passes the check, returns `Ok`, and the
i64 credit wraps, changing the exact sum of balances from 3000 to
`3000 - 2^64` — conservation under "exact integer arithmetic, no rounding"
fails on the program (a debug build panics at the credit instead). -/
theorem c2_i64_wrap_counterexample :
    init_bank.totalBalance = 3000 ∧
    handle_transaction_i64 init_bank
        { from_ := "patko", to_ := "siska", amount := -(2 ^ 63 - 2000) } =
      TxResult.ok (Bank.mk [Account.new "patko" (2 ^ 63 - 1000),
        Account.new "siska" (3000 - 2 ^ 63), Account.new "sofka" 1000]) ∧
    (Bank.mk [Account.new "patko" (2 ^ 63 - 1000),
      Account.new "siska" (3000 - 2 ^ 63), Account.new "sofka" 1000]).totalBalance = 3000 ∧
    handle_transaction_i64
        (Bank.mk [Account.new "patko" (2 ^ 63 - 1000),
          Account.new "siska" (3000 - 2 ^ 63), Account.new "sofka" 1000])
        { from_ := "sofka", to_ := "patko", amount := 1000 } =
      TxResult.ok (Bank.mk [Account.new "patko" (-(2 ^ 63)),
        Account.new "siska" (3000 - 2 ^ 63), Account.new "sofka" 0]) ∧
    (Bank.mk [Account.new "patko" (-(2 ^ 63)),
      Account.new "siska" (3000 - 2 ^ 63), Account.new "sofka" 0]).totalBalance =
        3000 - 2 ^ 64 ∧
    (3000 - 2 ^ 64 : Int) ≠ 3000 := by
  refine ⟨by decide, by decide, by decide, by decide, by decide, by decide⟩

/-- Claim C2 amended: every successful transfer under the faithful i64
semantics conserves the sum of all balances modulo `2^64`; it conserves the
sum exactly whenever the debit result `from.balance - amount` and the credit
result `to.balance + amount` stay in the i64 range (which also rules out
the debug-build panic). -/
theorem c2_i64_total_conserved (b : Bank) (tx : TXInfo) (b' : Bank)
    (hnd : b.names.Nodup) (hok : handle_transaction_i64 b tx = TxResult.ok b') :
    b'.totalBalance % 2 ^ 64 = b.totalBalance % 2 ^ 64 ∧
    (∀ af a2, b.getAccount tx.from_ = some af → b.getAccount tx.to_ = some a2 →
      inI64 (af.balance - tx.amount) → inI64 (a2.balance + tx.amount) →
      b'.totalBalance = b.totalBalance) := by
  obtain ⟨hne, af, a2, hf, ht, hs, rfl⟩ := handle_transaction_i64_ok_inv b tx b' hok
  have hnd1 : (b.updateAccount tx.from_
      (fun a => a.subtract_funds_i64 tx.amount)).names.Nodup := by
    rw [names_updateAccount _ _ _ (subtract_funds_i64_name tx.amount)]
    exact hnd
  have hget1 : (b.updateAccount tx.from_
      (fun a => a.subtract_funds_i64 tx.amount)).getAccount tx.to_ = some a2 := by
    rw [getAccount_updateAccount_ne _ _ _ _ (subtract_funds_i64_name tx.amount) (Ne.symm hne)]
    exact ht
  constructor
  · rw [totalBalance_updateAccount _ _ _ a2 hnd1 hget1,
      totalBalance_updateAccount _ _ _ af hnd hf,
      add_funds_i64_balance, subtract_funds_i64_balance]
    exact sum_mod_helper b.totalBalance af.balance a2.balance tx.amount _ _
      (wrap64_emod _) (wrap64_emod _)
  · intro af2 a22 hf2 ht2 hin1 hin2
    have haf2 : af2 = af := Option.some.inj (hf2.symm.trans hf)
    have ha22 : a22 = a2 := Option.some.inj (ht2.symm.trans ht)
    rw [haf2] at hin1
    rw [ha22] at hin2
    rw [totalBalance_updateAccount _ _ _ a2 hnd1 hget1,
      totalBalance_updateAccount _ _ _ af hnd hf,
      add_funds_i64_balance, subtract_funds_i64_balance,
      wrap64_eq_self _ hin1.1 hin1.2, wrap64_eq_self _ hin2.1 hin2.2]
    ring

/-- Witness for the amended C2: the in-range transfer `patko -> siska, 300`
conserves the total both modulo `2^64` and exactly. -/
theorem c2_i64_total_conserved_witness :
    init_bank.names.Nodup ∧
    handle_transaction_i64 init_bank { from_ := "patko", to_ := "siska", amount := 300 } =
      TxResult.ok (Bank.mk
        [Account.new "patko" 700, Account.new "siska" 1300, Account.new "sofka" 1000]) ∧
    ((Bank.mk [Account.new "patko" 700, Account.new "siska" 1300,
        Account.new "sofka" 1000]).totalBalance % 2 ^ 64 =
        init_bank.totalBalance % 2 ^ 64 ∧
      (∀ af a2, init_bank.getAccount "patko" = some af →
        init_bank.getAccount "siska" = some a2 →
        inI64 (af.balance - 300) → inI64 (a2.balance + 300) →
        (Bank.mk [Account.new "patko" 700, Account.new "siska" 1300,
          Account.new "sofka" 1000]).totalBalance = init_bank.totalBalance)) :=
  ⟨by decide, by decide,
    c2_i64_total_conserved init_bank { from_ := "patko", to_ := "siska", amount := 300 }
      (Bank.mk [Account.new "patko" 700, Account.new "siska" 1300, Account.new "sofka" 1000])
      (by decide) (by decide)⟩

/-- Claim C3 (refuted as stated, code bug): a transfer with `from == to` on an
existing account does not return normally; `get_many_mut` yields `None` for
the duplicated key, the `(true, true)` arm runs, and the `unreachable!()`
at lib.rs 152 panics. -/
theorem c3_self_transfer_hits_unreachable :
    handle_transaction init_bank { from_ := "patko", to_ := "patko", amount := 100 } =
      TxResult.panicUnreachable init_bank := by
  decide

/-- Claim C4 (refuted as stated, code bug): transferring from the missing
account `"ghost"` to the existing `"patko"` does produce
`AccountNamesTuple("ghost", "")`, but the `Display` impl prints the empty
field, so the rendered message names neither side; symmetrically for a
missing `to` side. -/
theorem c4_missing_account_message_drops_name :
    handle_transaction init_bank { from_ := "ghost", to_ := "patko", amount := 10 } =
      TxResult.err (CustomError.AccountDoesNotExistError ⟨"ghost", ""⟩) init_bank ∧
    accountDoesNotExistMessage ⟨"ghost", ""⟩ = "Account(s) \x27\x27 not found" ∧
    accountDoesNotExistMessage ⟨"ghost", ""⟩ ≠ "Account(s) \x27ghost\x27 not found" ∧
    handle_transaction init_bank { from_ := "patko", to_ := "ghost", amount := 10 } =
      TxResult.err (CustomError.AccountDoesNotExistError ⟨"", "ghost"⟩) init_bank ∧
    accountDoesNotExistMessage ⟨"", "ghost"⟩ = "Account(s) \x27\x27 not found" := by
  refine ⟨by decide, by decide, by decide, by decide, by decide⟩

/-- Counterexample to C5 as stated: two failure modes.  (i) `from == to ==
"patko"` names existing accounts on both sides and `5000` exceeds the
balance `1000`, yet `handle_transaction` hits the `unreachable!()` panic
instead of returning `InsufficientFundsError` (in both the exact and the
i64 model).  (ii) Even with distinct accounts, from the reachable state
with patko at `-2000` (one wrapped-model step from the seed) and amount
`2^63 - 1000 > -2000`, the i64 check `-2000 - (2^63 - 1000)` overflows:
a release build wraps it positive and the transfer SUCCEEDS (a debug build
panics), again not producing `InsufficientFundsError`. -/
theorem c5_insufficient_counterexample :
    handle_transaction init_bank { from_ := "patko", to_ := "patko", amount := 5000 } =
      TxResult.panicUnreachable init_bank ∧
    (¬∃ b', handle_transaction init_bank { from_ := "patko", to_ := "patko", amount := 5000 } =
      TxResult.err (CustomError.InsufficientFundsError "patko") b') ∧
    handle_transaction_i64 init_bank { from_ := "patko", to_ := "patko", amount := 5000 } =
      TxResult.panicUnreachable init_bank ∧
    handle_transaction_i64 init_bank { from_ := "siska", to_ := "patko", amount := -3000 } =
      TxResult.ok (Bank.mk [Account.new "patko" (-2000),
        Account.new "siska" 4000, Account.new "sofka" 1000]) ∧
    ((-2000 : Int) < 2 ^ 63 - 1000) ∧
    handle_transaction_i64
        (Bank.mk [Account.new "patko" (-2000),
          Account.new "siska" 4000, Account.new "sofka" 1000])
        { from_ := "patko", to_ := "siska", amount := 2 ^ 63 - 1000 } =
      TxResult.ok (Bank.mk [Account.new "patko" (2 ^ 63 - 1000),
        Account.new "siska" (3000 - 2 ^ 63), Account.new "sofka" 1000]) ∧
    (¬∃ b', handle_transaction_i64
        (Bank.mk [Account.new "patko" (-2000),
          Account.new "siska" 4000, Account.new "sofka" 1000])
        { from_ := "patko", to_ := "siska", amount := 2 ^ 63 - 1000 } =
      TxResult.err (CustomError.InsufficientFundsError "patko") b') := by
  have h1 : handle_transaction init_bank { from_ := "patko", to_ := "patko", amount := 5000 } =
      TxResult.panicUnreachable init_bank := by decide
  have h2 : handle_transaction_i64
      (Bank.mk [Account.new "patko" (-2000),
        Account.new "siska" 4000, Account.new "sofka" 1000])
      { from_ := "patko", to_ := "siska", amount := 2 ^ 63 - 1000 } =
      TxResult.ok (Bank.mk [Account.new "patko" (2 ^ 63 - 1000),
        Account.new "siska" (3000 - 2 ^ 63), Account.new "sofka" 1000]) := by decide
  refine ⟨h1, ?_, by decide, by decide, by decide, h2, ?_⟩
  · rintro ⟨b', h⟩
    rw [h1] at h
    exact TxResult.noConfusion h
  · rintro ⟨b', h⟩
    rw [h2] at h
    exact TxResult.noConfusion h

/-- Claim C5 amended: for every transfer where `from` and `to` are DISTINCT
existing accounts, the amount exceeds the `from` balance, and the check
subtraction `from.balance - amount` stays within the i64 range (at least
`-2^63`), `handle_transaction` under the faithful i64 semantics returns
`InsufficientFundsError` carrying the `from` name and the bank is
unchanged (no operation overflows, so debug and release builds agree). -/
theorem c5_insufficient_funds_amended (b : Bank) (tx : TXInfo) (af a2 : Account)
    (hne : tx.from_ ≠ tx.to_)
    (hf : b.getAccount tx.from_ = some af) (ht : b.getAccount tx.to_ = some a2)
    (hover : af.balance < tx.amount)
    (hrange : -(2 ^ 63) ≤ af.balance - tx.amount) :
    handle_transaction_i64 b tx =
      TxResult.err (CustomError.InsufficientFundsError tx.from_) b := by
  have hchkeq : wrap64 (af.balance - tx.amount) = af.balance - tx.amount :=
    wrap64_eq_self _ hrange (by linarith)
  apply handle_transaction_i64_insufficient b tx af a2 hne hf ht
  rw [hchkeq]
  linarith

/-- Witness for the amended C5: `patko -> siska, 5000` on the seeded bank
fails with `InsufficientFundsError("patko")` and leaves the bank as it was. -/
theorem c5_insufficient_funds_amended_witness :
    (("patko" : String) ≠ "siska") ∧
    init_bank.getAccount "patko" = some (Account.new "patko" 1000) ∧
    init_bank.getAccount "siska" = some (Account.new "siska" 1000) ∧
    ((Account.new "patko" 1000).balance < (5000 : Amount)) ∧
    (-(2 ^ 63) ≤ (Account.new "patko" 1000).balance - (5000 : Amount)) ∧
    handle_transaction_i64 init_bank { from_ := "patko", to_ := "siska", amount := 5000 } =
      TxResult.err (CustomError.InsufficientFundsError "patko") init_bank :=
  ⟨by decide, by decide, by decide, by decide, by decide,
    c5_insufficient_funds_amended init_bank
      { from_ := "patko", to_ := "siska", amount := 5000 }
      (Account.new "patko" 1000) (Account.new "siska" 1000)
      (by decide) (by decide) (by decide) (by decide) (by decide)⟩

/-- Counterexample to C6 as stated: the input string `"-5"` parses to the
negative integer `-5`, yet `get_tx_info` returns a `TXInfo` (with negative
amount) instead of an error. -/
theorem c6_negative_amount_counterexample :
    parseI64 "-5" = some (-5) ∧ ((-5 : Int) < 0) ∧
    get_tx_info "patko" "siska" "-5" =
      Except.ok { from_ := "patko", to_ := "siska", amount := -5 } := by
  refine ⟨by decide, by decide, by rfl⟩

/-- Claim C6 amended: `get_tx_info` accepts exactly the amount strings that
parse as an i64 — including negative ones — producing a `TXInfo` whose
amount is the parsed value, which always lies in `[-(2^63), 2^63 - 1]`; it
returns `ParseIntError` exactly when parsing fails. -/
theorem c6_amount_parse_amended (f t a : String) :
    (∀ n : Int, parseI64 a = some n →
      get_tx_info f t a = Except.ok { from_ := f, to_ := t, amount := n } ∧
        -(2 ^ 63) ≤ n ∧ n ≤ 2 ^ 63 - 1) ∧
    (parseI64 a = none → get_tx_info f t a = Except.error CustomError.ParseIntError) := by
  constructor
  · intro n hn
    obtain ⟨h1, h2⟩ := parseI64_range a n hn
    exact ⟨by simp [get_tx_info, hn], h1, h2⟩
  · intro hn
    simp [get_tx_info, hn]

/-- Witness for the amended C6: `"-7"` parses to `-7` and yields a `TXInfo`
with that negative amount. -/
theorem c6_amount_parse_amended_witness :
    parseI64 "-7" = some (-7) ∧
    get_tx_info "siska" "patko" "-7" =
      Except.ok { from_ := "siska", to_ := "patko", amount := -7 } ∧
    -(2 ^ 63) ≤ (-7 : Int) ∧ (-7 : Int) ≤ 2 ^ 63 - 1 :=
  ⟨by decide,
    ((c6_amount_parse_amended "siska" "patko" "-7").1 (-7) (by decide)).1,
    ((c6_amount_parse_amended "siska" "patko" "-7").1 (-7) (by decide)).2.1,
    ((c6_amount_parse_amended "siska" "patko" "-7").1 (-7) (by decide)).2.2⟩

/-- Claim C7 (refuted as stated, code bug): the live `run_app` loop continues
after every received datagram — including the quit instruction byte
`'q'` (113) — and no received byte terminates it; the dispatch that would
return on `"q"` is commented out. -/
theorem c7_quit_does_not_terminate_loop :
    (run_app_loop_body (some [113, 0, 0])).control = LoopControl.nextIteration ∧
    ∀ recvResult, (run_app_loop_body recvResult).control = LoopControl.nextIteration := by
  refine ⟨rfl, fun r => ?_⟩
  cases r <;> rfl

/-- Claim C8: the key set of the accounts map is invariant — every
`handle_transaction` outcome preserves the name list, and any sequence of
transactions starting from the seeded bank keeps exactly the seeded names
(`show_all_accounts` takes the bank immutably and is a pure read in the
embedding). -/
theorem c8_account_names_fixed :
    (∀ (b : Bank) (tx : TXInfo), (handle_transaction b tx).bank.names = b.names) ∧
    (∀ txs : List TXInfo, (applyTxs init_bank txs).names = ["patko", "siska", "sofka"]) := by
  refine ⟨names_handle_transaction, fun txs => ?_⟩
  rw [names_applyTxs]
  decide

/-- Claim C9: starting from the seeded bank, any sequence of transactions
with non-negative amounts keeps every balance non-negative. -/
theorem c9_balances_stay_nonneg (txs : List TXInfo)
    (h : ∀ tx ∈ txs, 0 ≤ tx.amount) :
    (applyTxs init_bank txs).allNonNeg = true :=
  allNonNeg_applyTxs init_bank txs (by decide) (by decide) h

/-- Witness for C9: the two-step sequence `patko -> siska, 300` then
`siska -> sofka, 1200` has non-negative amounts and keeps all balances
non-negative. -/
theorem c9_balances_stay_nonneg_witness :
    (∀ tx ∈ [({ from_ := "patko", to_ := "siska", amount := 300 } : TXInfo),
        { from_ := "siska", to_ := "sofka", amount := 1200 }], 0 ≤ tx.amount) ∧
    (applyTxs init_bank [{ from_ := "patko", to_ := "siska", amount := 300 },
      { from_ := "siska", to_ := "sofka", amount := 1200 }]).allNonNeg = true :=
  ⟨by decide, c9_balances_stay_nonneg _ (by decide)⟩

/-- Counterexample to C10 as stated: at `amount = i64::MIN` (negative,
distinct existing accounts, non-negative `from` balance) the claim's
"check passes for any negative amount" fails on the program: the i64
subtraction `1000 - (-2^63)` overflows, so a release build wraps it
negative and returns `InsufficientFundsError` (a debug build panics) — the
transfer does not succeed. -/
theorem c10_i64_min_amount_counterexample :
    ((-(2 ^ 63) : Amount) < 0) ∧
    ((0 : Amount) ≤ (Account.new "siska" 1000).balance) ∧
    (Account.new "siska" 1000).has_sufficient_funds_i64 (-(2 ^ 63)) = false ∧
    handle_transaction_i64 init_bank { from_ := "siska", to_ := "sofka", amount := -(2 ^ 63) } =
      TxResult.err (CustomError.InsufficientFundsError "siska") init_bank ∧
    (¬∃ b', handle_transaction_i64 init_bank
        { from_ := "siska", to_ := "sofka", amount := -(2 ^ 63) } = TxResult.ok b') := by
  have h1 : handle_transaction_i64 init_bank
      { from_ := "siska", to_ := "sofka", amount := -(2 ^ 63) } =
      TxResult.err (CustomError.InsufficientFundsError "siska") init_bank := by decide
  refine ⟨by decide, by decide, by decide, h1, ?_⟩
  rintro ⟨b', h⟩
  rw [h1] at h
  exact TxResult.noConfusion h

/-- Claim C10 amended: a transfer with a negative amount between distinct
existing accounts, with a non-negative `from` balance, passes the i64
sufficiency check and succeeds as a reverse transfer — `from` gains
`|amount|` and `to` loses `|amount|` — provided no i64 operation overflows:
the check value `from.balance - amount` stays at most `2^63 - 1`, the `to`
balance is in the i64 range, and the debited result `to.balance + amount`
stays at least `-2^63` (then debug and release builds agree). -/
theorem c10_i64_negative_amount_reverse_transfer (b : Bank) (tx : TXInfo) (af a2 : Account)
    (hne : tx.from_ ≠ tx.to_)
    (hf : b.getAccount tx.from_ = some af) (ht : b.getAccount tx.to_ = some a2)
    (hneg : tx.amount < 0) (hnn : 0 ≤ af.balance)
    (hchk : af.balance - tx.amount ≤ 2 ^ 63 - 1)
    (ha2hi : a2.balance ≤ 2 ^ 63 - 1)
    (hdr : -(2 ^ 63) ≤ a2.balance + tx.amount) :
    af.has_sufficient_funds_i64 tx.amount = true ∧
    ∃ b', handle_transaction_i64 b tx = TxResult.ok b' ∧
      (b'.getAccount tx.from_).map Account.balance = some (af.balance + |tx.amount|) ∧
      (b'.getAccount tx.to_).map Account.balance = some (a2.balance - |tx.amount|) := by
  have hchkeq : wrap64 (af.balance - tx.amount) = af.balance - tx.amount :=
    wrap64_eq_self _ (by linarith) hchk
  have hsuff : 0 ≤ wrap64 (af.balance - tx.amount) := by
    rw [hchkeq]
    linarith
  have hcreq : wrap64 (a2.balance + tx.amount) = a2.balance + tx.amount :=
    wrap64_eq_self _ hdr (by linarith)
  have habs : |tx.amount| = -tx.amount := abs_of_neg hneg
  constructor
  · simp [Account.has_sufficient_funds_i64]
    linarith
  refine ⟨_, handle_transaction_i64_success b tx af a2 hne hf ht hsuff, ?_, ?_⟩
  · rw [getAccount_updateAccount_ne _ _ _ _ (add_funds_i64_name tx.amount) hne,
      getAccount_updateAccount_self _ _ _ (subtract_funds_i64_name tx.amount), hf,
      Option.map_some', Option.map_some', subtract_funds_i64_balance, hchkeq, habs]
    rw [sub_eq_add_neg]
  · rw [getAccount_updateAccount_self _ _ _ (add_funds_i64_name tx.amount),
      getAccount_updateAccount_ne _ _ _ _ (subtract_funds_i64_name tx.amount) (Ne.symm hne), ht,
      Option.map_some', Option.map_some', add_funds_i64_balance, hcreq, habs]
    rw [sub_eq_add_neg, neg_neg]

/-- Witness for the amended C10: `patko -> siska, -100` on the seeded bank
stays in range and moves patko to 1100 and siska to 900. -/
theorem c10_i64_negative_amount_reverse_transfer_witness :
    (("patko" : String) ≠ "siska") ∧
    init_bank.getAccount "patko" = some (Account.new "patko" 1000) ∧
    init_bank.getAccount "siska" = some (Account.new "siska" 1000) ∧
    ((-100 : Amount) < 0) ∧ ((0 : Amount) ≤ (Account.new "patko" 1000).balance) ∧
    ((Account.new "patko" 1000).balance - (-100 : Amount) ≤ 2 ^ 63 - 1) ∧
    ((Account.new "siska" 1000).balance ≤ 2 ^ 63 - 1) ∧
    (-(2 ^ 63) ≤ (Account.new "siska" 1000).balance + (-100 : Amount)) ∧
    ((Account.new "patko" 1000).has_sufficient_funds_i64 (-100) = true ∧
      ∃ b', handle_transaction_i64 init_bank
          { from_ := "patko", to_ := "siska", amount := -100 } = TxResult.ok b' ∧
        (b'.getAccount "patko").map Account.balance = some 1100 ∧
        (b'.getAccount "siska").map Account.balance = some 900) :=
  ⟨by decide, by decide, by decide, by decide, by decide, by decide, by decide, by decide,
    c10_i64_negative_amount_reverse_transfer init_bank
      { from_ := "patko", to_ := "siska", amount := -100 }
      (Account.new "patko" 1000) (Account.new "siska" 1000)
      (by decide) (by decide) (by decide) (by decide) (by decide) (by decide) (by decide)
      (by decide)⟩
